import Mathlib

/-!
Verification of the content-management backend in `src/server.js`.

The file shallowly embeds the parts of the server the claims are about:
JavaScript value semantics (truthiness, `||`, `??`, `undefined`), the slug
deriver `generateSlug`, the JSON boundary (`JSON.stringify` and the inverse
decoding performed by the database driver for `jsonb` columns), the
partial-update compiler `dynamicUpdate`, and the route handlers for create,
patch, delete, and the contact-page singleton.

Modelling conventions:
  * JSON request bodies are association lists `List (String × Json)`;
    a missing key destructures to `undefined`, modelled as `none : Option Json`.
  * `Date.now()` is passed explicitly as a `Nat` parameter `now`.
  * JavaScript `toLowerCase` is modelled on the ASCII range (the only range
    exercised by the claims; JS additionally lowercases non-ASCII cased
    letters).
  * JSON numbers are modelled as integers: every numeric literal the claims
    exercise is integral, and `JSON.stringify` prints integral doubles in
    plain decimal.
-/

/-- Characters matched by the JavaScript regexp `\s` (and trimmed by
`String.prototype.trim`): space, tab, LF, VT, FF, CR, NBSP, BOM, and the
Unicode space separators and line/paragraph separators. -/
def isJsWs (c : Char) : Bool :=
  let n := c.toNat
  n == 32 || n == 9 || n == 10 || n == 11 || n == 12 || n == 13 ||
  n == 0xa0 || n == 0x1680 || (0x2000 ≤ n && n ≤ 0x200a) ||
  n == 0x2028 || n == 0x2029 || n == 0x202f || n == 0x205f ||
  n == 0x3000 || n == 0xfeff

/-- JSON values, as produced by `JSON.parse` of a request body or stored in a
`jsonb` column.  Numbers are modelled as integers (see the file header). -/
inductive Json where
  | null
  | bool (b : Bool)
  | num (n : Int)
  | str (s : String)
  | arr (elems : List Json)
  | obj (fields : List (String × Json))
deriving Repr

/-- JavaScript truthiness of a defined JSON value. -/
def Json.truthy : Json → Bool
  | .null => false
  | .bool b => b
  | .num n => n != 0
  | .str s => s != ""
  | .arr _ => true
  | .obj _ => true

/-- JavaScript truthiness of a possibly-`undefined` value
(`none` models `undefined`). -/
def jsTruthy : Option Json → Bool
  | none => false
  | some j => j.truthy

/-- JavaScript `a || b` for a possibly-`undefined` `a`. -/
def jsOr (a : Option Json) (b : Json) : Json :=
  match a with
  | some j => if j.truthy then j else b
  | none => b

/-- JavaScript nullish coalescing `a ?? b`: only `undefined` and `null`
fall through to `b`. -/
def jsNullish (a : Option Json) (b : Json) : Json :=
  match a with
  | none => b
  | some .null => b
  | some j => j

/-- A parsed JSON request body: the ordered own-property list of the object. -/
abbrev Body := List (String × Json)

/-- Property access `body.k`: the first entry for the key, or `undefined`. -/
def lookupField (b : Body) (k : String) : Option Json :=
  (b.find? (fun kv => kv.1 == k)).map (fun kv => kv.2)

/-- Decimal digit character (for `0 ≤ d ≤ 9`). -/
def digitChar (d : Nat) : Char := Char.ofNat (48 + d)

/-- Fuel-driven decimal rendering accumulator (most significant digit first
in the final result). -/
def natDigitsGo : Nat → Nat → List Char → List Char
  | 0, _, acc => acc
  | fuel+1, n, acc =>
    if n < 10 then digitChar n :: acc
    else natDigitsGo fuel (n / 10) (digitChar (n % 10) :: acc)

/-- Decimal digit list of a natural number, as JavaScript renders an integral
number into a template string. -/
def natDigits (n : Nat) : List Char := natDigitsGo (n + 1) n []

/-- Decimal string of a natural number. -/
def natStr (n : Nat) : String := String.mk (natDigits n)

/-- JavaScript `String.prototype.trim`: drop leading and trailing
whitespace. -/
def jsTrimChars (l : List Char) : List Char :=
  ((l.dropWhile isJsWs).reverse.dropWhile isJsWs).reverse

/-- One pass of `replace(/\s+/g, "-")`: each maximal run of whitespace
characters becomes a single hyphen.  The boolean records whether the scan is
currently inside a whitespace run. -/
def collapseWsGo : Bool → List Char → List Char
  | _, [] => []
  | inRun, c :: cs =>
    if isJsWs c then
      if inRun then collapseWsGo true cs else '-' :: collapseWsGo true cs
    else c :: collapseWsGo false cs

/-- JavaScript `replace(/\s+/g, "-")`. -/
def collapseWs (l : List Char) : List Char := collapseWsGo false l

/-- Embedding of `generateSlug(title, existingSlug = "")` (server.js:164-168).
`Date.now()` is the explicit parameter `now`.  The JS truthiness tests
`if (existingSlug)` / `if (!title)` on strings are non-emptiness tests. -/
def generateSlug (now : Nat) (title existingSlug : String) : String :=
  if existingSlug ≠ "" then existingSlug
  else if title = "" then "no-title-" ++ natStr now
  else String.mk ((collapseWs (jsTrimChars title.data)).map Char.toLower)


/-! ## The JSON boundary

`server.js` writes structured columns by binding `JSON.stringify(value)` with
an `::jsonb` cast and reads them back through the driver, which parses the
stored JSON text.  The serializer below follows `JSON.stringify`; the decoder
is the JSON grammar restricted to the whitespace-free text that
`JSON.stringify` emits. -/

/-- The left curly bracket character. -/
def lbrace : Char := Char.ofNat 123

/-- The right curly bracket character. -/
def rbrace : Char := Char.ofNat 125

/-- Decimal digit test. -/
def isDigitChar (c : Char) : Bool := 48 ≤ c.toNat && c.toNat ≤ 57

/-- Lowercase hex digit character (for `0 ≤ d ≤ 15`), as emitted by
`JSON.stringify` in `\u00XX` escapes. -/
def hexChar (d : Nat) : Char :=
  if d < 10 then digitChar d else Char.ofNat (87 + d)

/-- How `JSON.stringify` escapes one character inside a string literal:
quote and backslash get a backslash escape, the five classic control
characters get their shorthand escapes, the remaining control characters get
`\u00XX`, and every other character is emitted verbatim. -/
def escChar (c : Char) : List Char :=
  if c = '"' then ['\\', '"']
  else if c = '\\' then ['\\', '\\']
  else if c.toNat = 8 then ['\\', 'b']
  else if c.toNat = 9 then ['\\', 't']
  else if c.toNat = 10 then ['\\', 'n']
  else if c.toNat = 12 then ['\\', 'f']
  else if c.toNat = 13 then ['\\', 'r']
  else if c.toNat < 32 then
    ['\\', 'u', '0', '0', hexChar (c.toNat / 16), hexChar (c.toNat % 16)]
  else [c]

/-- Escape every character of a string body. -/
def escList (l : List Char) : List Char := l.foldr (fun c acc => escChar c ++ acc) []

/-- A JSON string literal, quotes included. -/
def serStr (s : String) : List Char := '"' :: escList s.data ++ ['"']

/-- Decimal rendering of an integer. -/
def intChars : Int → List Char
  | .ofNat m => natDigits m
  | .negSucc m => '-' :: natDigits (m + 1)

mutual

/-- Embedding of `JSON.stringify` on a JSON value (no indentation argument, as in
`server.js`), producing the character list of the JSON text. -/
def serJson : Json → List Char
  | .null => "null".data
  | .bool true => "true".data
  | .bool false => "false".data
  | .num n => intChars n
  | .str s => serStr s
  | .arr xs => '[' :: serElems xs ++ [']']
  | .obj kvs => lbrace :: serMembers kvs ++ [rbrace]

/-- Comma-joined serialization of array elements. -/
def serElems : List Json → List Char
  | [] => []
  | [x] => serJson x
  | x :: y :: xs => serJson x ++ ',' :: serElems (y :: xs)

/-- Comma-joined serialization of object members. -/
def serMembers : List (String × Json) → List Char
  | [] => []
  | [(k, v)] => serStr k ++ ':' :: serJson v
  | (k, v) :: m :: ms => serStr k ++ ':' :: serJson v ++ ',' :: serMembers (m :: ms)

end

/-- Decode one backslash escape shorthand. -/
def decodeEsc (c : Char) : Option Char :=
  if c = '"' then some '"'
  else if c = '\\' then some '\\'
  else if c = '/' then some '/'
  else if c = 'b' then some (Char.ofNat 8)
  else if c = 't' then some (Char.ofNat 9)
  else if c = 'n' then some (Char.ofNat 10)
  else if c = 'f' then some (Char.ofNat 12)
  else if c = 'r' then some (Char.ofNat 13)
  else none

/-- Value of a hex digit character. -/
def hexVal (c : Char) : Option Nat :=
  if 48 ≤ c.toNat ∧ c.toNat ≤ 57 then some (c.toNat - 48)
  else if 97 ≤ c.toNat ∧ c.toNat ≤ 102 then some (c.toNat - 87)
  else if 65 ≤ c.toNat ∧ c.toNat ≤ 70 then some (c.toNat - 55)
  else none

/-- Parse the body of a JSON string literal (the opening quote already
consumed), returning the decoded characters and the input after the closing
quote. -/
def parseStr : List Char → Option (List Char × List Char)
  | [] => none
  | c :: cs =>
    if c = '"' then some ([], cs)
    else if c = '\\' then
      match cs with
      | 'u' :: h1 :: h2 :: h3 :: h4 :: rest =>
        match hexVal h1, hexVal h2, hexVal h3, hexVal h4 with
        | some a, some b, some c2, some d =>
          (parseStr rest).map
            (fun p => (Char.ofNat (((a * 16 + b) * 16 + c2) * 16 + d) :: p.1, p.2))
        | _, _, _, _ => none
      | e :: rest =>
        (decodeEsc e).bind (fun d => (parseStr rest).map (fun p => (d :: p.1, p.2)))
      | [] => none
    else (parseStr cs).map (fun p => (c :: p.1, p.2))

/-- Numeric value of a digit run (most significant first). -/
def digitsVal (l : List Char) : Nat := l.foldl (fun a c => 10 * a + (c.toNat - 48)) 0

/-- Parse a maximal nonempty run of decimal digits. -/
def parseNat (cs : List Char) : Option (Nat × List Char) :=
  let ds := cs.takeWhile isDigitChar
  if ds.isEmpty then none else some (digitsVal ds, cs.dropWhile isDigitChar)

mutual

/-- Fuel-indexed JSON value decoder over the whitespace-free grammar. -/
def parseVal : Nat → List Char → Option (Json × List Char)
  | 0, _ => none
  | fuel+1, cs =>
    match cs with
    | [] => none
    | c :: rest =>
      if c = 'n' then
        match rest with
        | 'u' :: 'l' :: 'l' :: r => some (.null, r)
        | _ => none
      else if c = 't' then
        match rest with
        | 'r' :: 'u' :: 'e' :: r => some (.bool true, r)
        | _ => none
      else if c = 'f' then
        match rest with
        | 'a' :: 'l' :: 's' :: 'e' :: r => some (.bool false, r)
        | _ => none
      else if c = '"' then
        (parseStr rest).map (fun p => (.str (String.mk p.1), p.2))
      else if c = '[' then
        match rest with
        | [] => none
        | r :: rs =>
          if r = ']' then some (.arr [], rs)
          else (parseElems fuel (r :: rs)).map (fun p => (.arr p.1, p.2))
      else if c = lbrace then
        match rest with
        | [] => none
        | r :: rs =>
          if r = rbrace then some (.obj [], rs)
          else (parseMembers fuel (r :: rs)).map (fun p => (.obj p.1, p.2))
      else if c = '-' then
        (parseNat rest).map (fun p => (.num (-(p.1 : Int)), p.2))
      else if isDigitChar c then
        (parseNat (c :: rest)).map (fun p => (.num (p.1 : Int), p.2))
      else none

/-- Decode a nonempty comma-separated element list up to and including the
closing square bracket. -/
def parseElems : Nat → List Char → Option (List Json × List Char)
  | 0, _ => none
  | fuel+1, cs =>
    (parseVal fuel cs).bind (fun p =>
      match p.2 with
      | ',' :: r => (parseElems fuel r).map (fun q => (p.1 :: q.1, q.2))
      | ']' :: r => some ([p.1], r)
      | _ => none)

/-- Decode a nonempty comma-separated member list up to and including the
closing curly bracket. -/
def parseMembers : Nat → List Char → Option (List (String × Json) × List Char)
  | 0, _ => none
  | fuel+1, cs =>
    match cs with
    | '"' :: r =>
      (parseStr r).bind (fun pk =>
        match pk.2 with
        | ':' :: r2 =>
          (parseVal fuel r2).bind (fun pv =>
            match pv.2 with
            | ',' :: r3 =>
              (parseMembers fuel r3).map
                (fun q => ((String.mk pk.1, pv.1) :: q.1, q.2))
            | c2 :: r3 =>
              if c2 = rbrace then some ([(String.mk pk.1, pv.1)], r3) else none
            | [] => none)
        | _ => none)
    | _ => none

end

/-- The `JSON.stringify` text as a string-valued function. -/
def jsonStringify (v : Json) : String := String.mk (serJson v)

/-- JSON text decoding, with fuel ample for any value whose text fits in the
input; the whole input must be consumed. -/
def jsonParse (s : String) : Option Json :=
  match parseVal (s.data.length + 1) s.data with
  | some (v, []) => some v
  | _ => none

/-- The stored-and-reloaded value of a `jsonb` column: the server binds
`JSON.stringify v` under an `::jsonb` cast, and the driver returns the parsed
stored JSON on read. -/
def jsonbRoundTrip (v : Json) : Json := (jsonParse (jsonStringify v)).getD Json.null

mutual

/-- Decoder fuel sufficient for one JSON value. -/
def jfuel : Json → Nat
  | .arr xs => jfuelList xs + 1
  | .obj kvs => jfuelMembers kvs + 1
  | _ => 1

/-- Decoder fuel sufficient for an element list. -/
def jfuelList : List Json → Nat
  | [] => 0
  | x :: xs => jfuel x + jfuelList xs + 1

/-- Decoder fuel sufficient for a member list. -/
def jfuelMembers : List (String × Json) → Nat
  | [] => 0
  | kv :: kvs => jfuel kv.2 + jfuelMembers kvs + 1

end

/-- The input does not begin with a decimal digit (so a preceding number
parse cannot overrun into it). -/
def noLeadingDigit : List Char → Prop
  | [] => True
  | c :: _ => isDigitChar c = false

/-! ## The partial-update compiler `dynamicUpdate` (server.js:170-199)

`dynamicUpdate(table, id, updates)` walks `Object.entries(updates)`, skips
the `id` key, and for every other key pushes the SQL fragment
`` `${key}=$${idx}` `` (with an `::jsonb` cast for the two structured keys)
into the statement text and the value into the parameter array.  The
embedding splits this into the compiled statement text, the bound
parameters, and an execution model of the resulting `UPDATE`. -/

/-- A value bound as a query parameter: either a JavaScript value passed
through (`none` models `undefined`, which the driver sends as SQL NULL), or
`JSON.stringify` text bound under an `::jsonb` cast. -/
inductive SqlParam where
  | val (v : Option Json)
  | jsonText (s : String)
deriving Repr

/-- The two keys `dynamicUpdate` treats as structured (server.js:178). -/
def isJsonbKey (k : String) : Bool := k == "subcategories" || k == "address_lines"

/-- The entries of `updates` that survive the `key === 'id'` skip, in entry
order. -/
def applicableUpdates (updates : Body) : Body :=
  updates.filter (fun kv => kv.1 != "id")

/-- The SQL `SET` fragment compiled for the `idx`-th surviving key
(1-based), exactly as interpolated by the source: the caller-supplied key
verbatim, `=$idx`, and an `::jsonb` cast for the structured keys. -/
def setClause (idx : Nat) (k : String) : String :=
  if isJsonbKey k then k ++ "=$" ++ natStr idx ++ "::jsonb"
  else k ++ "=$" ++ natStr idx

/-- The source's entry loop: one `SET` fragment per surviving entry, the
parameter index starting at 1 and incremented per fragment. -/
def setClausesGo (idx : Nat) : Body → List String
  | [] => []
  | kv :: t => setClause idx kv.1 :: setClausesGo (idx + 1) t

/-- All compiled `SET` fragments of an update mapping, in entry order. -/
def setClauses (updates : Body) : List String :=
  setClausesGo 1 (applicableUpdates updates)

/-- The parameter bound for one surviving entry: structured keys bind the
`JSON.stringify` of the value, every other key binds the value as-is. -/
def bindParam (kv : String × Json) : SqlParam :=
  if isJsonbKey kv.1 then .jsonText (jsonStringify kv.2) else .val (some kv.2)

/-- The full statement text `dynamicUpdate` compiles (server.js:190). -/
def updateQueryText (table : String) (updates : Body) : String :=
  "UPDATE " ++ table ++ " SET " ++ String.intercalate ", " (setClauses updates) ++
  " WHERE id=$" ++ natStr ((applicableUpdates updates).length + 1) ++ " RETURNING *"

/-- The compiled statement of `dynamicUpdate`: `none` models the early
`return null` when zero applicable fields remain (no query is issued);
otherwise the statement text plus the bound parameters, the record
identifier last.  `req.params.id` is a string. -/
def dynamicUpdateCompile (table : String) (idStr : String) (updates : Body) :
    Option (String × List SqlParam) :=
  if (applicableUpdates updates).isEmpty then none
  else some (updateQueryText table updates,
    (applicableUpdates updates).map bindParam ++ [.val (some (.str idStr))])

/-! ### Execution model of the compiled `UPDATE` -/

/-- A stored record, as the driver returns it: column name to value. -/
abbrev Row := List (String × Json)

/-- One table: record identifier to row. -/
abbrev TableState := List (Nat × Row)

/-- The row matching an identifier, if any. -/
def lookupRow (st : TableState) (id : Nat) : Option Row :=
  (st.find? (fun p => p.1 == id)).map (fun p => p.2)

/-- Set one field of an association list, replacing in place or appending. -/
def setEntry (r : List (String × Json)) (k : String) (v : Json) :
    List (String × Json) :=
  if r.any (fun kv => kv.1 == k) then
    r.map (fun kv => if kv.1 == k then (k, v) else kv)
  else r ++ [(k, v)]

/-- The value a column holds after the update: structured keys store the
bound JSON text re-parsed by the `::jsonb` cast, scalars store the bound
value. -/
def storedValue (k : String) (v : Json) : Json :=
  if isJsonbKey k then jsonbRoundTrip v else v

/-- Apply every surviving assignment of the `SET` list to a row. -/
def applyUpdates (r : Row) (updates : Body) : Row :=
  updates.foldl (fun acc kv => setEntry acc kv.1 (storedValue kv.1 kv.2)) r

/-- Replace the row at an identifier. -/
def replaceRow (st : TableState) (id : Nat) (r : Row) : TableState :=
  st.map (fun p => if p.1 == id then (id, r) else p)

/-- The three JavaScript values `dynamicUpdate` can produce: `null` from the
zero-field early return, `undefined` (`rows[0]` of an empty result) when no
row matched, or the updated row.  `null` and `undefined` are distinct
JavaScript values, hence distinct constructors. -/
inductive UpdRes where
  | noChange
  | notFound
  | updated (r : Row)
deriving Repr

/-- Result of running `dynamicUpdate`: the returned value, the table after
the call, and whether a query was issued at all. -/
structure UpdRun where
  res : UpdRes
  state : TableState
  queried : Bool

/-- Execution of `dynamicUpdate(table, id, updates)` against a table state:
the zero-field early return issues no query; otherwise the single compiled
`UPDATE ... WHERE id=... RETURNING *` runs. -/
def dynamicUpdateRun (st : TableState) (id : Nat) (updates : Body) : UpdRun :=
  let appl := applicableUpdates updates
  if appl.isEmpty then ⟨.noChange, st, false⟩
  else
    match lookupRow st id with
    | none => ⟨.notFound, st, true⟩
    | some r =>
      let r' := applyUpdates r appl
      ⟨.updated r', replaceRow st id r', true⟩

/-! ## Route handlers -/

/-- HTTP responses the modelled routes produce. -/
inductive Resp where
  | ok (body : Json)
  | okMsg (msg : String)
  | err404 (msg : String)
  | err400 (msg : String)
  | err500
deriving Repr

/-- A returned row serialized into the JSON response body. -/
def rowToJson (r : Row) : Json := .obj r

/-- Embedding of `generateSlug` applied to raw JavaScript values, as the
create routes do (`generateSlug(title, req.body.slug)`): a truthy explicit
slug of any type is returned unchanged, a falsy title yields the fallback,
a truthy string title is normalized, and a truthy non-string title makes
`title.trim()` throw (`none`), which the route surfaces as a 500. -/
def jsGenerateSlug (now : Nat) (title existing : Option Json) : Option Json :=
  if jsTruthy existing then existing
  else if !(jsTruthy title) then some (.str ("no-title-" ++ natStr now))
  else match title with
    | some (.str s) =>
      some (.str (String.mk ((collapseWs (jsTrimChars s.data)).map Char.toLower)))
    | _ => none

/-- PATCH `/api/product-categories/:id` (server.js:244-251): derives a slug
when the body has a truthy title and a falsy slug, then delegates to
`dynamicUpdate`; both the `null` (no applicable fields) and `undefined`
(no matching row) results map to the same 404 response. -/
def patchProductCategories (st : TableState) (id : Nat) (body : Body) (now : Nat) :
    Resp × TableState :=
  let titleV := lookupField body "title"
  if jsTruthy titleV && !(jsTruthy (lookupField body "slug")) then
    match jsGenerateSlug now titleV none with
    | none => (.err500, st)
    | some slug =>
      let u := dynamicUpdateRun st id (setEntry body "slug" slug)
      match u.res with
      | .updated r => (.ok (rowToJson r), u.state)
      | _ => (.err404 "Not found or No changes", u.state)
  else
    let u := dynamicUpdateRun st id body
    match u.res with
    | .updated r => (.ok (rowToJson r), u.state)
    | _ => (.err404 "Not found or No changes", u.state)

/-- Execution of `DELETE ... WHERE id=$1 RETURNING *`: the returned rows and the table
afterwards. -/
def deleteRows (st : TableState) (id : Nat) : List Row × TableState :=
  ((st.filter (fun p => p.1 == id)).map (fun p => p.2),
   st.filter (fun p => p.1 != id))

/-- The delete handler shape of products, product-categories and
service-categories (server.js:253-259, 290-296, 345-351): 404 when the
`RETURNING` set is empty, `{message: "Deleted"}` otherwise. -/
def deleteCheckedRoute (st : TableState) (id : Nat) : Resp × TableState :=
  let d := deleteRows st id
  if d.1.isEmpty then (.err404 "Not found", d.2) else (.okMsg "Deleted", d.2)

/-- The delete handler shape of services, news, certifications and
customer-logos (server.js:384-389, 422-427, 453-458, 484-489): no row
check, always `{message: "Deleted"}`. -/
def deleteUncheckedRoute (st : TableState) (id : Nat) : Resp × TableState :=
  let d := deleteRows st id
  (.okMsg "Deleted", d.2)

/-- The by-id GET handler shape (products, services, news): 404 when no row
matches, else the row. -/
def getByIdRoute (st : TableState) (id : Nat) : Resp :=
  match lookupRow st id with
  | none => .err404 "Not found"
  | some r => .ok (rowToJson r)

/-! ## Create-route bind lists

Each create route destructures `req.body` and binds a fixed parameter list
into its `INSERT`.  The embedding records, per column, the parameter bound
for it; `.val none` is JavaScript `undefined`, which the driver sends as SQL
NULL. -/

/-- POST `/api/products` (server.js:323-335): validates category and name,
then binds with `|| ""`, `|| 0` and `?? true` defaults.  `none` models the
400 rejection. -/
def productsCreateBinds (body : Body) : Option (List (String × SqlParam)) :=
  let category := lookupField body "category"
  let name := lookupField body "name"
  if !(jsTruthy category) || !(jsTruthy name) then none
  else some [
    ("category", .val category),
    ("subcategory", .val (some (jsOr (lookupField body "subcategory") (.str "")))),
    ("name", .val name),
    ("description", .val (some (jsOr (lookupField body "description") (.str "")))),
    ("image_url", .val (some (jsOr (lookupField body "image_url") (.str "")))),
    ("sort_order", .val (some (jsOr (lookupField body "sort_order") (.num 0)))),
    ("is_active", .val (some (jsNullish (lookupField body "is_active") (.bool true)))),
    ("cta_url", .val (some (jsOr (lookupField body "cta_url") (.str ""))))]

/-- POST `/api/product-categories` (server.js:232-242): slug derivation plus
defaults; subcategories are stringified with a `[]` fallback.  `none` models
the 500 on a non-string truthy title. -/
def productCategoriesCreateBinds (body : Body) (now : Nat) :
    Option (List (String × SqlParam)) :=
  let title := lookupField body "title"
  (jsGenerateSlug now title (lookupField body "slug")).map (fun slug =>
    [("title", .val title),
     ("slug", .val (some slug)),
     ("sort_order", .val (some (jsOr (lookupField body "sort_order") (.num 0)))),
     ("is_active", .val (some (jsNullish (lookupField body "is_active") (.bool true)))),
     ("subcategories",
      .jsonText (jsonStringify (jsOr (lookupField body "subcategories") (.arr []))))])

/-- POST `/api/service-categories` (server.js:269-279). -/
def serviceCategoriesCreateBinds (body : Body) (now : Nat) :
    Option (List (String × SqlParam)) :=
  let title := lookupField body "title"
  (jsGenerateSlug now title (lookupField body "slug")).map (fun slug =>
    [("title", .val title),
     ("slug", .val (some slug)),
     ("sort_order", .val (some (jsOr (lookupField body "sort_order") (.num 0)))),
     ("is_active", .val (some (jsNullish (lookupField body "is_active") (.bool true))))])

/-- POST `/api/services` (server.js:367-376): the destructured values are
bound with no defaulting at all. -/
def servicesCreateBinds (body : Body) : List (String × SqlParam) :=
  [("title", .val (lookupField body "title")),
   ("description", .val (lookupField body "description")),
   ("image_url", .val (lookupField body "image_url")),
   ("sort_order", .val (lookupField body "sort_order")),
   ("is_active", .val (lookupField body "is_active"))]

/-- POST `/api/news` (server.js:405-414): no defaulting. -/
def newsCreateBinds (body : Body) : List (String × SqlParam) :=
  [("title", .val (lookupField body "title")),
   ("content", .val (lookupField body "content")),
   ("image_url", .val (lookupField body "image_url")),
   ("sort_order", .val (lookupField body "sort_order")),
   ("is_active", .val (lookupField body "is_active"))]

/-- POST `/api/certifications` (server.js:436-445): no defaulting. -/
def certificationsCreateBinds (body : Body) : List (String × SqlParam) :=
  [("title", .val (lookupField body "title")),
   ("image_url", .val (lookupField body "image_url")),
   ("sort_order", .val (lookupField body "sort_order"))]

/-- POST `/api/customer-logos` (server.js:467-476): no defaulting. -/
def customerLogosCreateBinds (body : Body) : List (String × SqlParam) :=
  [("name", .val (lookupField body "name")),
   ("image_url", .val (lookupField body "image_url")),
   ("sort_order", .val (lookupField body "sort_order"))]

/-! ## Table schemas (from `initDB`, server.js:29-126) -/

/-- The columns of each table created by `initDB`. -/
def tableColumns : String → List String
  | "product_categories" =>
    ["id", "title", "slug", "sort_order", "is_active", "subcategories"]
  | "service_categories" => ["id", "title", "slug", "sort_order", "is_active"]
  | "products" =>
    ["id", "category", "subcategory", "name", "description", "image_url",
     "sort_order", "is_active", "cta_url"]
  | "services" => ["id", "title", "description", "image_url", "sort_order", "is_active"]
  | "news" => ["id", "title", "content", "image_url", "sort_order", "is_active"]
  | "certifications" => ["id", "title", "image_url", "sort_order"]
  | "customer_logos" => ["id", "name", "image_url", "sort_order"]
  | "contact_page" =>
    ["id", "heading", "description", "email", "phone", "line_label", "line_url",
     "line_icon_url", "address_lines", "open_hours", "map_title", "map_embed_url",
     "updated_at"]
  | _ => []

/-- The columns `initDB` declares NOT NULL (SERIAL primary keys included). -/
def notNullColumns : String → List String
  | "product_categories" => ["id", "title", "slug"]
  | "service_categories" => ["id", "title", "slug"]
  | "products" => ["id", "category", "name"]
  | "services" => ["id", "title"]
  | "news" => ["id", "title"]
  | "certifications" => ["id", "title"]
  | "customer_logos" => ["id", "name"]
  | _ => ["id"]

/-- A bind that reaches a column as SQL NULL: JavaScript `undefined` or
`null`. -/
def isNullBind : SqlParam → Bool
  | .val none => true
  | .val (some .null) => true
  | _ => false

/-! ## The contact-page singleton (server.js:492-534) -/

/-- The single `contact_page` row (fixed key `id = 1`, kept implicit). -/
structure ContactRow where
  heading : Json
  description : Json
  email : Json
  phone : Json
  line_label : Json
  line_url : Json
  line_icon_url : Json
  address_lines : Json
  open_hours : Json
  map_title : Json
  map_embed_url : Json
  updated_at : Nat
deriving Repr

/-- The stored value of a scalar contact column: an `undefined` bind arrives
as SQL NULL, which the driver returns as JSON null. -/
def storedScalar (v : Option Json) : Json := v.getD .null

/-- The row the contact upsert writes, built only from the payload and the
write time: every content column from `req.body.data`, `address_lines`
stringified with a `[]` fallback through the `jsonb` boundary, and
`updated_at` set to the current time. -/
def buildContactRow (d : Body) (now : Nat) : ContactRow :=
  { heading := storedScalar (lookupField d "heading"),
    description := storedScalar (lookupField d "description"),
    email := storedScalar (lookupField d "email"),
    phone := storedScalar (lookupField d "phone"),
    line_label := storedScalar (lookupField d "line_label"),
    line_url := storedScalar (lookupField d "line_url"),
    line_icon_url := storedScalar (lookupField d "line_icon_url"),
    address_lines := jsonbRoundTrip (jsOr (lookupField d "address_lines") (.arr [])),
    open_hours := storedScalar (lookupField d "open_hours"),
    map_title := storedScalar (lookupField d "map_title"),
    map_embed_url := storedScalar (lookupField d "map_embed_url"),
    updated_at := now }

/-- PUT `/api/site/contact`: the single
`INSERT ... VALUES (1, ...) ON CONFLICT (id) DO UPDATE SET ...` statement.
When no row exists the insert branch fires (`updated_at` takes its
`CURRENT_TIMESTAMP` column default); when the fixed-key row exists the
conflict branch overwrites every content column with the `EXCLUDED` value
and stamps `updated_at = CURRENT_TIMESTAMP`.  Returns the `RETURNING *` row
and the table afterwards. -/
def contactPut (st : Option ContactRow) (d : Body) (now : Nat) :
    ContactRow × Option ContactRow :=
  let new := buildContactRow d now
  match st with
  | none => (new, some new)
  | some old =>
    let upd : ContactRow :=
      { old with
        heading := new.heading, description := new.description,
        email := new.email, phone := new.phone,
        line_label := new.line_label, line_url := new.line_url,
        line_icon_url := new.line_icon_url, address_lines := new.address_lines,
        open_hours := new.open_hours, map_title := new.map_title,
        map_embed_url := new.map_embed_url, updated_at := now }
    (upd, some upd)

/-- The driver's view of the contact row (the fixed key included). -/
def contactRowToJson (r : ContactRow) : Json :=
  .obj [("id", .num 1), ("heading", r.heading), ("description", r.description),
        ("email", r.email), ("phone", r.phone), ("line_label", r.line_label),
        ("line_url", r.line_url), ("line_icon_url", r.line_icon_url),
        ("address_lines", r.address_lines), ("open_hours", r.open_hours),
        ("map_title", r.map_title), ("map_embed_url", r.map_embed_url),
        ("updated_at", .num r.updated_at)]

/-- GET `/api/site/contact` (server.js:492-498): `rows[0] || {}` — with no
stored row the response data is the empty object literal, never a 404. -/
def contactGetRoute (st : Option ContactRow) : Resp :=
  match st with
  | none => .ok (.obj [])
  | some r => .ok (contactRowToJson r)

/-- Field access on a JSON object response body. -/
def objLookup (j : Json) (k : String) : Option Json :=
  match j with
  | .obj kvs => (kvs.find? (fun kv => kv.1 == k)).map (fun kv => kv.2)
  | _ => none

/-- The content fields of the contact resource (its schema minus the fixed
key and the write timestamp). -/
def contactContentFields : List String :=
  ["heading", "description", "email", "phone", "line_label", "line_url",
   "line_icon_url", "address_lines", "open_hours", "map_title", "map_embed_url"]

/-! ## Claim statements under test -/

/-- Claim C1 as stated: for every resource table and update mapping, no
caller-supplied key outside the table's fixed schema is forwarded into the
compiled mutation as a column target. -/
def claimC1 : Prop :=
  ∀ (table : String) (updates : Body) (k : String),
    k ∈ (applicableUpdates updates).map Prod.fst → k ∈ tableColumns table

/-- Claim C2 as stated: an update call with zero applicable fields returns
NoChange without touching storage, and that outcome is distinguishable from
NotFound, which arises only when applicable fields exist but no record
matches — distinguishability taken at the caller-visible PATCH response. -/
def claimC2 : Prop :=
  (∀ (st : TableState) (id : Nat) (updates : Body),
    applicableUpdates updates = [] →
    dynamicUpdateRun st id updates = ⟨.noChange, st, false⟩) ∧
  (∀ (st : TableState) (id : Nat) (updates : Body),
    (dynamicUpdateRun st id updates).res = .notFound ↔
      applicableUpdates updates ≠ [] ∧ lookupRow st id = none) ∧
  (∀ (st1 st2 : TableState) (id1 id2 : Nat) (b1 b2 : Body) (now1 now2 : Nat),
    applicableUpdates b1 = [] →
    applicableUpdates b2 ≠ [] → lookupRow st2 id2 = none →
    patchProductCategories st1 id1 b1 now1 ≠ patchProductCategories st2 id2 b2 now2)

/-- Claim C5 as stated: every create route among the six resource families
substitutes defaults for absent optional fields (`sort_order` to 0,
`is_active` to true, free text to `""`), so that no parameter bound for a
NOT NULL column is ever `undefined`/`null`. -/
def claimC5 : Prop :=
  (∀ body binds, productsCreateBinds body = some binds →
    ∀ p ∈ binds, p.1 ∈ notNullColumns "products" → isNullBind p.2 = false) ∧
  (∀ body now binds, productCategoriesCreateBinds body now = some binds →
    ∀ p ∈ binds, p.1 ∈ notNullColumns "product_categories" → isNullBind p.2 = false) ∧
  (∀ body now binds, serviceCategoriesCreateBinds body now = some binds →
    ∀ p ∈ binds, p.1 ∈ notNullColumns "service_categories" → isNullBind p.2 = false) ∧
  (∀ body, ∀ p ∈ servicesCreateBinds body,
    p.1 ∈ notNullColumns "services" → isNullBind p.2 = false) ∧
  (∀ body, ∀ p ∈ newsCreateBinds body,
    p.1 ∈ notNullColumns "news" → isNullBind p.2 = false) ∧
  (∀ body, ∀ p ∈ certificationsCreateBinds body,
    p.1 ∈ notNullColumns "certifications" → isNullBind p.2 = false) ∧
  (∀ body, ∀ p ∈ customerLogosCreateBinds body,
    p.1 ∈ notNullColumns "customer_logos" → isNullBind p.2 = false) ∧
  (∀ body, lookupField body "sort_order" = none →
    ("sort_order", SqlParam.val (some (Json.num 0))) ∈ servicesCreateBinds body)

/-- Claim C6 as stated: for every resource family, deleting a missing
identifier answers NotFound, and deleting an existing record removes it so a
subsequent get answers NotFound. -/
def claimC6 : Prop :=
  (∀ (st : TableState) (id : Nat),
    lookupRow st id = none → (deleteCheckedRoute st id).1 = .err404 "Not found") ∧
  (∀ (st : TableState) (id : Nat),
    lookupRow st id = none → (deleteUncheckedRoute st id).1 = .err404 "Not found") ∧
  (∀ (st : TableState) (id : Nat) (r : Row),
    lookupRow st id = some r →
    (deleteCheckedRoute st id).1 = .okMsg "Deleted" ∧
    getByIdRoute (deleteCheckedRoute st id).2 id = .err404 "Not found") ∧
  (∀ (st : TableState) (id : Nat) (r : Row),
    lookupRow st id = some r →
    (deleteUncheckedRoute st id).1 = .okMsg "Deleted" ∧
    getByIdRoute (deleteUncheckedRoute st id).2 id = .err404 "Not found")

/-- Claim C7 as stated: with no stored contact row, the contact get returns
a structurally-complete record carrying every contact field (with
empty/default values) rather than NotFound. -/
def claimC7 : Prop :=
  (∀ st : Option ContactRow, ∀ m, contactGetRoute st ≠ .err404 m) ∧
  (∀ f ∈ contactContentFields,
    ∃ b d, contactGetRoute none = .ok b ∧ objLookup b f = some d)

/-- Claim C3 as stated: every titleless, slugless derivation yields a
non-empty `no-title-` slug, and two derivations at the same instant (equal
`Date.now()` readings) never return the same slug. -/
def claimC3 : Prop :=
  ∀ t1 t2 : Nat,
    generateSlug t1 "" "" ≠ "" ∧
    "no-title-".data <+: (generateSlug t1 "" "").data ∧
    (t1 = t2 → generateSlug t1 "" "" ≠ generateSlug t2 "" "")

/-- The spec's slug normalization, stated independently of the source's
single-pass scan: after trimming, each maximal whitespace run becomes one
hyphen (computed here by dropping the whole run at once), and the result is
lowercased with every other character passing through in order. -/
def collapseRuns : List Char → List Char
  | [] => []
  | c :: cs =>
    if isJsWs c then '-' :: collapseRuns (cs.dropWhile isJsWs)
    else c :: collapseRuns cs
termination_by l => l.length
decreasing_by
  · exact Nat.lt_succ_of_le (List.dropWhile_sublist isJsWs).length_le
  · exact Nat.lt_succ_self cs.length

/-- Normalization as the spec words it: trim surrounding whitespace, collapse
each internal whitespace run to a single hyphen, lowercase. -/
def specSlugNormalize (t : String) : String :=
  String.mk ((collapseRuns (jsTrimChars t.data)).map Char.toLower)

/-! ## Lemmas: decimal rendering -/

lemma natDigitsGo_append (fuel : Nat) : ∀ (n : Nat) (acc : List Char),
    natDigitsGo fuel n acc = natDigitsGo fuel n [] ++ acc := by
  induction fuel with
  | zero => intro n acc; simp [natDigitsGo]
  | succ fuel ih =>
    intro n acc
    by_cases h : n < 10
    · simp [natDigitsGo, h]
    · simp only [natDigitsGo, if_neg h]
      rw [ih (n / 10) (digitChar (n % 10) :: acc), ih (n / 10) [digitChar (n % 10)]]
      simp

lemma digitChar_toNat (d : Nat) (h : d < 10) : (digitChar d).toNat = 48 + d := by
  interval_cases d <;> decide

lemma isDigitChar_digitChar (d : Nat) (h : d < 10) :
    isDigitChar (digitChar d) = true := by
  interval_cases d <;> decide

lemma digitsVal_append_singleton (l : List Char) (c : Char) :
    digitsVal (l ++ [c]) = 10 * digitsVal l + (c.toNat - 48) := by
  simp [digitsVal, List.foldl_append]

lemma digitsVal_natDigitsGo (fuel : Nat) : ∀ n : Nat, n < fuel →
    digitsVal (natDigitsGo fuel n []) = n := by
  induction fuel with
  | zero => intro n h; omega
  | succ fuel ih =>
    intro n hn
    by_cases h : n < 10
    · simp [natDigitsGo, h, digitsVal, digitChar_toNat n h]
    · have hdiv : n / 10 < n := Nat.div_lt_self (by omega) (by omega)
      simp only [natDigitsGo, if_neg h]
      rw [natDigitsGo_append, digitsVal_append_singleton,
        ih (n / 10) (by omega), digitChar_toNat (n % 10) (Nat.mod_lt n (by omega))]
      omega

lemma digitsVal_natDigits (n : Nat) : digitsVal (natDigits n) = n :=
  digitsVal_natDigitsGo (n + 1) n (Nat.lt_succ_self n)

lemma natDigits_inj {a b : Nat} (h : natDigits a = natDigits b) : a = b := by
  rw [← digitsVal_natDigits a, ← digitsVal_natDigits b, h]

lemma natStr_inj {a b : Nat} (h : natStr a = natStr b) : a = b := by
  apply natDigits_inj
  simpa [natStr] using congrArg String.data h

lemma natDigitsGo_cons (fuel : Nat) : ∀ (n : Nat) (acc : List Char), n < fuel →
    ∃ c cs, natDigitsGo fuel n acc = c :: cs ∧ isDigitChar c = true := by
  induction fuel with
  | zero => intro n acc h; omega
  | succ fuel ih =>
    intro n acc hn
    by_cases h : n < 10
    · exact ⟨digitChar n, acc, by simp [natDigitsGo, h], isDigitChar_digitChar n h⟩
    · have hdiv : n / 10 < n := Nat.div_lt_self (by omega) (by omega)
      simp only [natDigitsGo, if_neg h]
      exact ih (n / 10) _ (by omega)

lemma natDigits_cons (n : Nat) :
    ∃ c cs, natDigits n = c :: cs ∧ isDigitChar c = true :=
  natDigitsGo_cons (n + 1) n [] (Nat.lt_succ_self n)

lemma natDigitsGo_all_digits (fuel : Nat) : ∀ (n : Nat) (acc : List Char),
    n < fuel → (∀ c ∈ acc, isDigitChar c = true) →
    ∀ c ∈ natDigitsGo fuel n acc, isDigitChar c = true := by
  induction fuel with
  | zero => intro n acc h; omega
  | succ fuel ih =>
    intro n acc hn hacc
    by_cases h : n < 10
    · simp only [natDigitsGo, if_pos h]
      intro c hc
      rcases List.mem_cons.mp hc with rfl | hc
      · exact isDigitChar_digitChar n h
      · exact hacc c hc
    · have hdiv : n / 10 < n := Nat.div_lt_self (by omega) (by omega)
      simp only [natDigitsGo, if_neg h]
      apply ih (n / 10) _ (by omega)
      intro c hc
      rcases List.mem_cons.mp hc with rfl | hc
      · exact isDigitChar_digitChar (n % 10) (Nat.mod_lt n (by omega))
      · exact hacc c hc

lemma natDigits_all_digits (n : Nat) : ∀ c ∈ natDigits n, isDigitChar c = true :=
  natDigitsGo_all_digits (n + 1) n [] (Nat.lt_succ_self n) (by simp)

/-! ## Slug deriver: the titleless fallback and normalization -/

lemma generateSlug_noTitle (t : Nat) :
    generateSlug t "" "" = "no-title-" ++ natStr t := by
  simp [generateSlug]

/-- Counterexample to C3: the fallback suffix is exactly `Date.now()`, so two
titleless derivations at the same millisecond return the identical slug. -/
theorem generateSlug_simultaneous_collision :
    generateSlug 1699999999999 "" "" = "no-title-1699999999999" ∧
    generateSlug 1699999999999 "" "" = generateSlug 1699999999999 "" "" ∧
    ¬ claimC3 := by
  refine ⟨by decide, rfl, fun h => ?_⟩
  exact (h 1699999999999 1699999999999).2.2 rfl rfl

/-- C3 (amended): a titleless, slugless derivation returns the non-empty slug
`no-title-<Date.now()>`; derivations at distinct instants return distinct
slugs, but derivations at the same instant return the same slug. -/
theorem generateSlug_noTitle_fallback (t1 t2 : Nat) :
    generateSlug t1 "" "" ≠ "" ∧
    "no-title-".data <+: (generateSlug t1 "" "").data ∧
    (t1 ≠ t2 → generateSlug t1 "" "" ≠ generateSlug t2 "" "") := by
  refine ⟨?_, ?_, ?_⟩
  · intro hc
    rw [generateSlug_noTitle] at hc
    have hlen := congrArg String.length hc
    rw [String.length_append] at hlen
    have h9 : ("no-title-" : String).length = 9 := rfl
    have h0 : ("" : String).length = 0 := rfl
    omega
  · exact ⟨(natStr t1).data, by rw [← String.data_append, ← generateSlug_noTitle]⟩
  · intro hne heq
    apply hne
    rw [generateSlug_noTitle, generateSlug_noTitle] at heq
    have hd := congrArg String.data heq
    rw [String.data_append, String.data_append] at hd
    exact natDigits_inj (List.append_cancel_left hd)

/-- Witness for the amended C3 at concrete instants. -/
theorem generateSlug_noTitle_fallback_witness :
    generateSlug 3 "" "" ≠ generateSlug 4 "" "" :=
  (generateSlug_noTitle_fallback 3 4).2.2 (by decide)

set_option maxHeartbeats 2000000 in
lemma collapseRuns_nil : collapseRuns [] = [] := by
  rw [collapseRuns.eq_def]

lemma collapseRuns_cons_pos (c : Char) (cs : List Char) (h : isJsWs c = true) :
    collapseRuns (c :: cs) = '-' :: collapseRuns (cs.dropWhile isJsWs) := by
  rw [collapseRuns.eq_def]
  simp [h]

lemma collapseRuns_cons_neg (c : Char) (cs : List Char) (h : isJsWs c = false) :
    collapseRuns (c :: cs) = c :: collapseRuns cs := by
  rw [collapseRuns.eq_def]
  simp [h]

lemma collapseWsGo_eq (l : List Char) :
    collapseWsGo false l = collapseRuns l ∧
    collapseWsGo true l = collapseRuns (l.dropWhile isJsWs) := by
  induction l with
  | nil => exact ⟨collapseRuns_nil.symm, collapseRuns_nil.symm⟩
  | cons c cs ih =>
    rcases ih with ⟨ih1, ih2⟩
    rcases hw : isJsWs c with hF | hT
    · refine ⟨?_, ?_⟩
      · rw [show collapseWsGo false (c :: cs) = c :: collapseWsGo false cs from by
          simp [collapseWsGo, hw]]
        rw [collapseRuns_cons_neg c cs hw, ih1]
      · rw [show collapseWsGo true (c :: cs) = c :: collapseWsGo false cs from by
          simp [collapseWsGo, hw]]
        rw [List.dropWhile_cons_of_neg (by simp [hw]),
          collapseRuns_cons_neg c cs hw, ih1]
    · refine ⟨?_, ?_⟩
      · rw [show collapseWsGo false (c :: cs) = '-' :: collapseWsGo true cs from by
          simp [collapseWsGo, hw]]
        rw [collapseRuns_cons_pos c cs hw, ih2]
      · rw [show collapseWsGo true (c :: cs) = collapseWsGo true cs from by
          simp [collapseWsGo, hw]]
        rw [List.dropWhile_cons_of_pos (by simp [hw])]
        exact ih2

/-- C4: a non-empty explicit slug is returned unchanged; otherwise a
non-empty title is normalized exactly as the spec words it (trim, collapse
each whitespace run to one hyphen, lowercase, all other characters passing
through in order), and `"Hello World"` derives `"hello-world"`. -/
theorem generateSlug_spec (now : Nat) (t s : String) :
    (s ≠ "" → generateSlug now t s = s) ∧
    (t ≠ "" → generateSlug now t "" = specSlugNormalize t) ∧
    generateSlug now "Hello World" "" = "hello-world" := by
  refine ⟨fun hs => by simp [generateSlug, hs], fun ht => ?_, by
    unfold generateSlug
    rw [if_neg (by simp), if_neg (by decide)]
    decide⟩
  unfold generateSlug
  rw [if_neg (by simp), if_neg ht]
  unfold specSlugNormalize collapseWs
  rw [(collapseWsGo_eq (jsTrimChars t.data)).1]

/-- Witness for C4 at concrete inputs. -/
theorem generateSlug_spec_witness :
    generateSlug 0 "x" "explicit" = "explicit" ∧
    generateSlug 0 "  Big  TITLE " "" = specSlugNormalize "  Big  TITLE " :=
  ⟨(generateSlug_spec 0 "x" "explicit").1 (by decide),
   (generateSlug_spec 0 "  Big  TITLE " "").2.1 (by decide)⟩

/-! ## JSON string escaping round-trip -/

lemma hexVal_hexChar (d : Nat) (h : d < 16) : hexVal (hexChar d) = some d := by
  interval_cases d <;> decide

lemma escList_cons (c : Char) (l : List Char) :
    escList (c :: l) = escChar c ++ escList l := rfl

lemma parseStr_esc (l : List Char) : ∀ rest : List Char,
    parseStr (escList l ++ '"' :: rest) = some (l, rest) := by
  induction l with
  | nil =>
    intro rest
    rw [show escList [] ++ '"' :: rest = '"' :: rest from rfl, parseStr.eq_def]
    simp
  | cons c l ih =>
    intro rest
    rw [escList_cons, List.append_assoc]
    by_cases h1 : c = '"'
    · subst h1
      rw [show escChar '"' = ['\\', '"'] from rfl]
      simp only [List.cons_append, List.nil_append]
      rw [parseStr.eq_def]
      simp [decodeEsc, ih]
    · by_cases h2 : c = '\\'
      · subst h2
        rw [show escChar '\\' = ['\\', '\\'] from rfl]
        simp only [List.cons_append, List.nil_append]
        rw [parseStr.eq_def]
        simp [decodeEsc, ih]
      · by_cases h3 : c.toNat = 8
        · have hc : c = Char.ofNat 8 := by rw [← h3, Char.ofNat_toNat]
          subst hc
          rw [show escChar (Char.ofNat 8) = ['\\', 'b'] from rfl]
          simp only [List.cons_append, List.nil_append]
          rw [parseStr.eq_def]
          simp [decodeEsc, ih]
        · by_cases h4 : c.toNat = 9
          · have hc : c = Char.ofNat 9 := by rw [← h4, Char.ofNat_toNat]
            subst hc
            rw [show escChar (Char.ofNat 9) = ['\\', 't'] from rfl]
            simp only [List.cons_append, List.nil_append]
            rw [parseStr.eq_def]
            simp [decodeEsc, ih]
          · by_cases h5 : c.toNat = 10
            · have hc : c = Char.ofNat 10 := by rw [← h5, Char.ofNat_toNat]
              subst hc
              rw [show escChar (Char.ofNat 10) = ['\\', 'n'] from rfl]
              simp only [List.cons_append, List.nil_append]
              rw [parseStr.eq_def]
              simp [decodeEsc, ih]
            · by_cases h6 : c.toNat = 12
              · have hc : c = Char.ofNat 12 := by rw [← h6, Char.ofNat_toNat]
                subst hc
                rw [show escChar (Char.ofNat 12) = ['\\', 'f'] from rfl]
                simp only [List.cons_append, List.nil_append]
                rw [parseStr.eq_def]
                simp [decodeEsc, ih]
              · by_cases h7 : c.toNat = 13
                · have hc : c = Char.ofNat 13 := by rw [← h7, Char.ofNat_toNat]
                  subst hc
                  rw [show escChar (Char.ofNat 13) = ['\\', 'r'] from rfl]
                  simp only [List.cons_append, List.nil_append]
                  rw [parseStr.eq_def]
                  simp [decodeEsc, ih]
                · by_cases h8 : c.toNat < 32
                  · have e1 : escChar c = ['\\', 'u', '0', '0',
                        hexChar (c.toNat / 16), hexChar (c.toNat % 16)] := by
                      unfold escChar
                      rw [if_neg h1, if_neg h2, if_neg h3, if_neg h4, if_neg h5,
                        if_neg h6, if_neg h7, if_pos h8]
                    rw [e1]
                    simp only [List.cons_append, List.nil_append]
                    rw [parseStr.eq_def]
                    simp only [reduceIte]
                    rw [show hexVal '0' = some 0 from rfl,
                      hexVal_hexChar (c.toNat / 16) (by omega),
                      hexVal_hexChar (c.toNat % 16) (by omega)]
                    simp only [ih]
                    have hval : c.toNat / 16 * 16 + c.toNat % 16 = c.toNat := by omega
                    simp [hval, Char.ofNat_toNat]
                  · have e1 : escChar c = [c] := by
                      unfold escChar
                      rw [if_neg h1, if_neg h2, if_neg h3, if_neg h4, if_neg h5,
                        if_neg h6, if_neg h7, if_neg h8]
                    rw [e1]
                    simp only [List.cons_append, List.nil_append]
                    rw [parseStr.eq_def]
                    simp [h1, h2, ih]

/-! ## Number parsing round-trip and head-character dispatch -/

lemma digits_span (xs : List Char) : ∀ ys : List Char,
    (∀ c ∈ xs, isDigitChar c = true) → noLeadingDigit ys →
    (xs ++ ys).takeWhile isDigitChar = xs ∧
    (xs ++ ys).dropWhile isDigitChar = ys := by
  induction xs with
  | nil =>
    intro ys _ hys
    cases ys with
    | nil => simp
    | cons y t =>
      simp only [noLeadingDigit] at hys
      simp [List.takeWhile_cons, List.dropWhile_cons, hys]
  | cons x xs ih =>
    intro ys hxs hys
    have hx : isDigitChar x = true := hxs x (List.mem_cons_self x xs)
    have hrest := ih ys (fun c hc => hxs c (List.mem_cons_of_mem x hc)) hys
    simp [List.takeWhile_cons, List.dropWhile_cons, hx, hrest.1, hrest.2]

lemma parseNat_natDigits (m : Nat) (rest : List Char) (hrest : noLeadingDigit rest) :
    parseNat (natDigits m ++ rest) = some (m, rest) := by
  have h := digits_span (natDigits m) rest (natDigits_all_digits m) hrest
  obtain ⟨c, cs, hcons, _⟩ := natDigits_cons m
  unfold parseNat
  rw [h.1, h.2]
  have hne : (natDigits m).isEmpty = false := by rw [hcons]; rfl
  simp [hne, digitsVal_natDigits]

lemma digit_not_special (c : Char) (h : isDigitChar c = true) :
    ¬ c = 'n' ∧ ¬ c = 't' ∧ ¬ c = 'f' ∧ ¬ c = '"' ∧ ¬ c = '[' ∧
    ¬ c = lbrace ∧ ¬ c = '-' := by
  simp only [isDigitChar, Bool.and_eq_true, decide_eq_true_eq] at h
  refine ⟨?_, ?_, ?_, ?_, ?_, ?_, ?_⟩ <;> (rintro rfl; revert h; decide)

lemma serJson_head_ne_rbrack (v : Json) :
    ∃ c cs, serJson v = c :: cs ∧ ¬ c = ']' := by
  cases v with
  | null => exact ⟨'n', _, rfl, by decide⟩
  | bool b => cases b with
    | true => exact ⟨'t', _, rfl, by decide⟩
    | false => exact ⟨'f', _, rfl, by decide⟩
  | num n =>
    cases n with
    | ofNat m =>
      obtain ⟨c, cs, hcons, hdig⟩ := natDigits_cons m
      refine ⟨c, cs, by simp [serJson, intChars, hcons], ?_⟩
      rintro rfl
      revert hdig
      decide
    | negSucc m =>
      exact ⟨'-', natDigits (m + 1), by simp [serJson, intChars], by decide⟩
  | str s => exact ⟨'"', _, rfl, by decide⟩
  | arr xs => exact ⟨'[', _, rfl, by decide⟩
  | obj kvs => exact ⟨lbrace, _, rfl, by decide⟩

lemma serElems_head_ne_rbrack (x : Json) (xs : List Json) :
    ∃ c cs, serElems (x :: xs) = c :: cs ∧ ¬ c = ']' := by
  obtain ⟨c, cs, hcons, hne⟩ := serJson_head_ne_rbrack x
  cases xs with
  | nil => exact ⟨c, cs, by simp [serElems, hcons], hne⟩
  | cons y ys =>
    exact ⟨c, cs ++ ',' :: serElems (y :: ys), by simp [serElems, hcons], hne⟩

lemma jfuel_pos (v : Json) : 1 ≤ jfuel v := by
  cases v <;> simp [jfuel]

/-! ## Decoder round-trip: leaf values -/

lemma parseVal_null (fuel : Nat) (rest : List Char) :
    parseVal (fuel + 1) (serJson .null ++ rest) = some (.null, rest) := by
  rw [show serJson .null ++ rest = 'n' :: 'u' :: 'l' :: 'l' :: rest from rfl,
    parseVal.eq_def]
  simp

lemma parseVal_bool (fuel : Nat) (b : Bool) (rest : List Char) :
    parseVal (fuel + 1) (serJson (.bool b) ++ rest) = some (.bool b, rest) := by
  cases b
  · rw [show serJson (.bool false) ++ rest = 'f' :: 'a' :: 'l' :: 's' :: 'e' :: rest
      from rfl, parseVal.eq_def]
    simp
  · rw [show serJson (.bool true) ++ rest = 't' :: 'r' :: 'u' :: 'e' :: rest
      from rfl, parseVal.eq_def]
    simp

lemma parseVal_str (fuel : Nat) (s : String) (rest : List Char) :
    parseVal (fuel + 1) (serJson (.str s) ++ rest) = some (.str s, rest) := by
  rw [show serJson (.str s) ++ rest = '"' :: (escList s.data ++ '"' :: rest) from by
    simp [serJson, serStr], parseVal.eq_def]
  simp [parseStr_esc s.data rest]

lemma parseVal_num (fuel : Nat) (n : Int) (rest : List Char)
    (hrest : noLeadingDigit rest) :
    parseVal (fuel + 1) (serJson (.num n) ++ rest) = some (.num n, rest) := by
  cases n with
  | ofNat m =>
    obtain ⟨c, cs, hcons, hdig⟩ := natDigits_cons m
    obtain ⟨g1, g2, g3, g4, g5, g6, g7⟩ := digit_not_special c hdig
    rw [show serJson (.num (.ofNat m)) = natDigits m from by simp [serJson, intChars],
      hcons, List.cons_append, parseVal.eq_def]
    simp only [g1, g2, g3, g4, g5, g6, g7, if_false, ite_false, if_neg, hdig]
    rw [← List.cons_append, ← hcons, parseNat_natDigits m rest hrest]
    simp [g1, g2, g3, g4, g5, g6, g7, hdig]
  | negSucc m =>
    rw [show serJson (.num (.negSucc m)) = '-' :: natDigits (m + 1) from by
      simp [serJson, intChars], List.cons_append, parseVal.eq_def]
    simp only [show ¬ (('-' : Char) = lbrace) from by decide,
      parseNat_natDigits (m + 1) rest hrest, Int.negSucc_eq]
    simp

lemma nld_nil : noLeadingDigit [] := trivial

lemma nld_rbrack (rest : List Char) : noLeadingDigit (']' :: rest) := by
  simp [noLeadingDigit, isDigitChar]

lemma nld_rbrace (rest : List Char) : noLeadingDigit (rbrace :: rest) := by
  simp [noLeadingDigit, isDigitChar, rbrace]

lemma nld_comma (rest : List Char) : noLeadingDigit (',' :: rest) := by
  simp [noLeadingDigit, isDigitChar]

lemma parse_ser_aux (fuel : Nat) :
    (∀ (v : Json) (rest : List Char), jfuel v ≤ fuel → noLeadingDigit rest →
      parseVal fuel (serJson v ++ rest) = some (v, rest)) ∧
    (∀ (x : Json) (xs : List Json) (rest : List Char),
      jfuelList (x :: xs) ≤ fuel →
      parseElems fuel (serElems (x :: xs) ++ ']' :: rest) = some (x :: xs, rest)) ∧
    (∀ (k : String) (v : Json) (kvs : List (String × Json)) (rest : List Char),
      jfuelMembers ((k, v) :: kvs) ≤ fuel →
      parseMembers fuel (serMembers ((k, v) :: kvs) ++ rbrace :: rest)
        = some ((k, v) :: kvs, rest)) := by
  induction fuel with
  | zero =>
    refine ⟨fun v rest hf _ => absurd hf (by have := jfuel_pos v; omega),
      fun x xs rest hf => absurd hf (by simp [jfuelList]),
      fun k v kvs rest hf => absurd hf (by simp [jfuelMembers])⟩
  | succ fuel ih =>
    obtain ⟨ihV, ihE, ihM⟩ := ih
    refine ⟨?_, ?_, ?_⟩
    · intro v rest hf hrest
      cases v with
      | null => exact parseVal_null fuel rest
      | bool b => exact parseVal_bool fuel b rest
      | num n => exact parseVal_num fuel n rest hrest
      | str s => exact parseVal_str fuel s rest
      | arr xs =>
        cases xs with
        | nil =>
          rw [show serJson (.arr []) ++ rest = '[' :: ']' :: rest from rfl,
            parseVal.eq_def]
          simp
        | cons x xs =>
          obtain ⟨c, cs, hcons, hne⟩ := serElems_head_ne_rbrack x xs
          have hfl : jfuelList (x :: xs) ≤ fuel := by simp [jfuel] at hf; omega
          rw [show serJson (.arr (x :: xs)) ++ rest
              = '[' :: (serElems (x :: xs) ++ ']' :: rest) from by simp [serJson],
            hcons, List.cons_append, parseVal.eq_def]
          simp only [hne, if_neg, reduceIte]
          rw [← List.cons_append, ← hcons, ihE x xs rest hfl]
          simp [hne]
      | obj kvs =>
        cases kvs with
        | nil =>
          rw [show serJson (.obj []) ++ rest = lbrace :: rbrace :: rest from rfl,
            parseVal.eq_def]
          simp [show ¬ (lbrace = 'n') from by decide,
            show ¬ (lbrace = 't') from by decide,
            show ¬ (lbrace = 'f') from by decide,
            show ¬ (lbrace = '"') from by decide,
            show ¬ (lbrace = '[') from by decide]
        | cons kv kvs =>
          obtain ⟨k, v⟩ := kv
          have hfm : jfuelMembers ((k, v) :: kvs) ≤ fuel := by
            simp [jfuel] at hf; omega
          have hm : ∃ t, serMembers ((k, v) :: kvs) = '"' :: t := by
            cases kvs with
            | nil =>
              exact ⟨escList k.data ++ '"' :: ':' :: serJson v,
                by simp [serMembers, serStr]⟩
            | cons m ms =>
              exact ⟨escList k.data ++ '"' :: ':' ::
                  (serJson v ++ ',' :: serMembers (m :: ms)),
                by simp [serMembers, serStr]⟩
          obtain ⟨t, ht⟩ := hm
          rw [show serJson (.obj ((k, v) :: kvs)) ++ rest
              = lbrace :: (serMembers ((k, v) :: kvs) ++ rbrace :: rest) from by
            simp [serJson], ht, List.cons_append, parseVal.eq_def]
          simp only [show ¬ (lbrace = 'n') from by decide,
            show ¬ (lbrace = 't') from by decide,
            show ¬ (lbrace = 'f') from by decide,
            show ¬ (lbrace = '"') from by decide,
            show ¬ (lbrace = '[') from by decide,
            show ¬ (('"' : Char) = rbrace) from by decide, if_neg, reduceIte]
          rw [← List.cons_append, ← ht, ihM k v kvs rest hfm]
          simp [show ¬ (('"' : Char) = rbrace) from by decide]
    · intro x xs rest hf
      cases xs with
      | nil =>
        have hfx : jfuel x ≤ fuel := by simp [jfuelList] at hf; omega
        rw [show serElems [x] ++ ']' :: rest = serJson x ++ ']' :: rest from rfl,
          parseElems.eq_def]
        simp [ihV x (']' :: rest) hfx (nld_rbrack rest)]
      | cons y ys =>
        have hfx : jfuel x ≤ fuel := by simp [jfuelList] at hf; omega
        have hfys : jfuelList (y :: ys) ≤ fuel := by
          simp [jfuelList] at hf ⊢; omega
        rw [show serElems (x :: y :: ys) ++ ']' :: rest
            = serJson x ++ (',' :: (serElems (y :: ys) ++ ']' :: rest)) from by
          simp [serElems], parseElems.eq_def]
        simp only [ihV x _ hfx (nld_comma _), Option.some_bind]
        rw [ihE y ys rest hfys]
        simp
    · intro k v kvs rest hf
      cases kvs with
      | nil =>
        have hfv : jfuel v ≤ fuel := by simp [jfuelMembers] at hf; omega
        rw [show serMembers [(k, v)] ++ rbrace :: rest
            = '"' :: (escList k.data ++ '"' ::
              (':' :: (serJson v ++ rbrace :: rest))) from by
          simp [serMembers, serStr], parseMembers.eq_def]
        simp only [parseStr_esc, Option.some_bind]
        simp only [ihV v (rbrace :: rest) hfv (nld_rbrace rest), Option.some_bind]
        simp only [show String.mk k.data = k from rfl]
        split
        · rename_i r3 heq
          injection heq with h1 h2
          exact absurd h1 (by decide)
        · rename_i c2 r3 heq
          injection heq with h1 h2
          subst h2
          rw [if_pos h1.symm]
        · rename_i heq
          exact absurd heq (by simp)
      | cons m ms =>
        obtain ⟨k2, v2⟩ := m
        have hfv : jfuel v ≤ fuel := by simp [jfuelMembers] at hf; omega
        have hfms : jfuelMembers ((k2, v2) :: ms) ≤ fuel := by
          simp [jfuelMembers] at hf ⊢; omega
        rw [show serMembers ((k, v) :: (k2, v2) :: ms) ++ rbrace :: rest
            = '"' :: (escList k.data ++ '"' :: (':' :: (serJson v ++
              (',' :: (serMembers ((k2, v2) :: ms) ++ rbrace :: rest))))) from by
          simp [serMembers, serStr], parseMembers.eq_def]
        simp only [parseStr_esc, Option.some_bind]
        simp only [ihV v _ hfv (nld_comma _), Option.some_bind]
        simp only [ihM k2 v2 ms rest hfms]
        simp [show String.mk k.data = k from rfl]

/-- Structural induction for the nested `Json` type. -/
theorem Json.inductionOn (P : Json → Prop)
    (hnull : P .null) (hbool : ∀ b, P (.bool b)) (hnum : ∀ n, P (.num n))
    (hstr : ∀ s, P (.str s))
    (harr : ∀ xs, (∀ x ∈ xs, P x) → P (.arr xs))
    (hobj : ∀ kvs, (∀ kv ∈ kvs, P kv.2) → P (.obj kvs)) :
    ∀ v, P v
  | .null => hnull
  | .bool b => hbool b
  | .num n => hnum n
  | .str s => hstr s
  | .arr xs => harr xs (fun x hx =>
      Json.inductionOn P hnull hbool hnum hstr harr hobj x)
  | .obj kvs => hobj kvs (fun kv hkv =>
      Json.inductionOn P hnull hbool hnum hstr harr hobj kv.2)
termination_by v => sizeOf v
decreasing_by
  · have h := List.sizeOf_lt_of_mem hx
    simp only [Json.arr.sizeOf_spec]
    omega
  · have h1 := List.sizeOf_lt_of_mem hkv
    have h2 : sizeOf kv.2 < sizeOf kv := by
      obtain ⟨a, b⟩ := kv
      simp
    simp only [Json.obj.sizeOf_spec]
    omega

lemma jfuelList_le (xs : List Json) (h : ∀ x ∈ xs, jfuel x ≤ (serJson x).length) :
    jfuelList xs ≤ (serElems xs).length + 1 := by
  induction xs with
  | nil => simp [jfuelList]
  | cons x xs ih =>
    have hx := h x (List.mem_cons_self x xs)
    cases xs with
    | nil => simp [jfuelList, serElems]; omega
    | cons y ys =>
      have ih2 := ih (fun z hz => h z (List.mem_cons_of_mem x hz))
      simp only [jfuelList, serElems, List.length_append, List.length_cons] at ih2 ⊢
      omega

lemma jfuelMembers_le (kvs : List (String × Json))
    (h : ∀ kv ∈ kvs, jfuel kv.2 ≤ (serJson kv.2).length) :
    jfuelMembers kvs ≤ (serMembers kvs).length + 1 := by
  induction kvs with
  | nil => simp [jfuelMembers]
  | cons kv kvs ih =>
    obtain ⟨k, v⟩ := kv
    have hx := h (k, v) (List.mem_cons_self _ kvs)
    cases kvs with
    | nil =>
      simp only [jfuelMembers, jfuelMembers, serMembers, serStr,
        List.length_append, List.length_cons] at hx ⊢
      omega
    | cons m ms =>
      have ih2 := ih (fun z hz => h z (List.mem_cons_of_mem _ hz))
      simp only [jfuelMembers, serMembers, serStr, List.length_append,
        List.length_cons] at ih2 hx ⊢
      omega

lemma jfuel_le_len (v : Json) : jfuel v ≤ (serJson v).length := by
  induction v using Json.inductionOn with
  | hnull => decide
  | hbool b => cases b <;> decide
  | hnum n =>
    cases n with
    | ofNat m =>
      obtain ⟨c, cs, hcons, _⟩ := natDigits_cons m
      simp [jfuel, serJson, intChars, hcons]
    | negSucc m => simp [jfuel, serJson, intChars]
  | hstr s => simp [jfuel, serJson, serStr]
  | harr xs hmem =>
    have := jfuelList_le xs hmem
    simp only [jfuel, serJson, List.length_append, List.length_cons] at this ⊢
    omega
  | hobj kvs hmem =>
    have := jfuelMembers_le kvs hmem
    simp only [jfuel, serJson, List.length_append, List.length_cons] at this ⊢
    omega

/-- The storage boundary is the identity on every JSON value: the driver's
parse of the `JSON.stringify` text recovers the value exactly. -/
theorem jsonParse_stringify (v : Json) : jsonParse (jsonStringify v) = some v := by
  unfold jsonParse jsonStringify
  have hfuel : jfuel v ≤ (serJson v).length + 1 :=
    le_trans (jfuel_le_len v) (by omega)
  have h := (parse_ser_aux ((serJson v).length + 1)).1 v [] hfuel nld_nil
  rw [List.append_nil] at h
  simp [h]

/-- C9: a structured (JSON-valued) field round-trips through the storage
boundary: for every list value V, the value stored by binding
`JSON.stringify V` under the `::jsonb` cast and read back by the driver is
the same logical list V, order preserved — both for the generic boundary and
for the two structured columns `dynamicUpdate` special-cases. -/
theorem structured_field_round_trip (V : List Json) :
    jsonbRoundTrip (Json.arr V) = Json.arr V ∧
    storedValue "subcategories" (Json.arr V) = Json.arr V ∧
    storedValue "address_lines" (Json.arr V) = Json.arr V := by
  have h : jsonbRoundTrip (Json.arr V) = Json.arr V := by
    unfold jsonbRoundTrip
    rw [jsonParse_stringify]
    rfl
  refine ⟨h, ?_, ?_⟩
  · rw [show storedValue "subcategories" (Json.arr V)
        = jsonbRoundTrip (Json.arr V) from by
      unfold storedValue
      rw [if_pos (show isJsonbKey "subcategories" = true from rfl)], h]
  · rw [show storedValue "address_lines" (Json.arr V)
        = jsonbRoundTrip (Json.arr V) from by
      unfold storedValue
      rw [if_pos (show isJsonbKey "address_lines" = true from rfl)], h]

/-! ## C1 and C10: the compiled statement text -/

/-- C1: the code violates the allow-list requirement.  On the concrete input
`PATCH /api/products/7` with body `{"not_a_column": "x"}`, `dynamicUpdate`
interpolates the caller-supplied key verbatim into the statement text as a
column target, although `not_a_column` is not a column of `products`; the
allow-list property claimed of the compiler is false. -/
theorem dynamicUpdate_forwards_unknown_column :
    updateQueryText "products" [("not_a_column", Json.str "x")]
      = "UPDATE products SET not_a_column=$1 WHERE id=$2 RETURNING *" ∧
    dynamicUpdateCompile "products" "7" [("not_a_column", Json.str "x")]
      = some ("UPDATE products SET not_a_column=$1 WHERE id=$2 RETURNING *",
          [.val (some (Json.str "x")), .val (some (Json.str "7"))]) ∧
    "not_a_column" ∉ tableColumns "products" ∧
    ¬ claimC1 := by
  refine ⟨by decide, rfl, by decide, fun h => ?_⟩
  have hmem : "not_a_column"
      ∈ (applicableUpdates [("not_a_column", Json.str "x")]).map Prod.fst := by
    rw [show (applicableUpdates [("not_a_column", Json.str "x")]).map Prod.fst
        = ["not_a_column"] from rfl]
    exact List.mem_singleton.mpr rfl
  exact absurd (h "products" [("not_a_column", Json.str "x")] "not_a_column" hmem)
    (by decide)

lemma map_fst_applicable (u1 : Body) : ∀ u2 : Body,
    u1.map Prod.fst = u2.map Prod.fst →
    (applicableUpdates u1).map Prod.fst = (applicableUpdates u2).map Prod.fst := by
  induction u1 with
  | nil =>
    intro u2 h
    cases u2 with
    | nil => rfl
    | cons b t => simp at h
  | cons a t1 ih =>
    intro u2 h
    cases u2 with
    | nil => simp at h
    | cons b t2 =>
      obtain ⟨ka, va⟩ := a
      obtain ⟨kb, vb⟩ := b
      simp only [List.map_cons, List.cons.injEq] at h
      obtain ⟨hk, ht⟩ := h
      subst hk
      simp only [applicableUpdates, List.filter_cons]
      by_cases hcase : (ka != "id") = true
      · simp only [hcase, if_true, List.map_cons, List.cons.injEq]
        exact ⟨trivial, by simpa only [applicableUpdates] using ih t2 ht⟩
      · simp only [Bool.not_eq_true] at hcase
        simp only [hcase, Bool.false_eq_true, if_false]
        simpa only [applicableUpdates] using ih t2 ht

lemma setClausesGo_keys (u1 : Body) : ∀ (idx : Nat) (u2 : Body),
    u1.map Prod.fst = u2.map Prod.fst →
    setClausesGo idx u1 = setClausesGo idx u2 := by
  induction u1 with
  | nil =>
    intro idx u2 h
    cases u2 with
    | nil => rfl
    | cons b t => simp at h
  | cons a t1 ih =>
    intro idx u2 h
    cases u2 with
    | nil => simp at h
    | cons b t2 =>
      simp only [List.map_cons, List.cons.injEq] at h
      obtain ⟨hk, ht⟩ := h
      simp only [setClausesGo, hk]
      rw [ih (idx + 1) t2 ht]

/-- C10: the statement text `dynamicUpdate` compiles is a function of the
table name and the key sequence of the mapping alone — two mappings with the
same keys in the same order compile to identical statement text, values
notwithstanding, and the values travel only in the bound-parameter list. -/
theorem updateQueryText_key_determined (table idStr : String) (u1 u2 : Body)
    (h : u1.map Prod.fst = u2.map Prod.fst) :
    updateQueryText table u1 = updateQueryText table u2 ∧
    (dynamicUpdateCompile table idStr u1).map Prod.fst
      = (dynamicUpdateCompile table idStr u2).map Prod.fst ∧
    (∀ q ∈ dynamicUpdateCompile table idStr u1,
      q.2 = (applicableUpdates u1).map bindParam ++ [.val (some (.str idStr))]) := by
  have happ := map_fst_applicable u1 u2 h
  have hlen : (applicableUpdates u1).length = (applicableUpdates u2).length := by
    have := congrArg List.length happ
    simpa using this
  have htext : updateQueryText table u1 = updateQueryText table u2 := by
    unfold updateQueryText setClauses
    rw [setClausesGo_keys (applicableUpdates u1) 1 (applicableUpdates u2) happ, hlen]
  refine ⟨htext, ?_, ?_⟩
  · unfold dynamicUpdateCompile
    have hemp : (applicableUpdates u1).isEmpty = (applicableUpdates u2).isEmpty := by
      rcases h1 : applicableUpdates u1 with _ | ⟨x, xs⟩ <;>
        rcases h2 : applicableUpdates u2 with _ | ⟨y, ys⟩ <;>
          first
          | rfl
          | (exfalso; rw [h1, h2] at hlen; simp at hlen)
    by_cases he : (applicableUpdates u1).isEmpty = true
    · rw [if_pos he, if_pos (hemp ▸ he)]
    · rw [if_neg he, if_neg (fun hc => he (hemp ▸ hc))]
      simp [htext]
  · intro q hq
    unfold dynamicUpdateCompile at hq
    by_cases he : (applicableUpdates u1).isEmpty = true
    · rw [if_pos he] at hq
      simp at hq
    · rw [if_neg he] at hq
      simp only [Option.mem_def, Option.some.injEq] at hq
      rw [← hq]

/-- Witness for C10: two mappings with the same single key and different
values compile to the same statement text. -/
theorem updateQueryText_key_determined_witness :
    updateQueryText "products" [("name", Json.str "a")]
      = updateQueryText "products" [("name", Json.str "b")] :=
  (updateQueryText_key_determined "products" "1"
    [("name", Json.str "a")] [("name", Json.str "b")] (by decide)).1

/-! ## C2: NoChange versus NotFound -/

/-- Counterexample to C2's distinguishability clause: the PATCH route maps
the zero-applicable-fields result (`null`) and the no-matching-row result
(`undefined`) to the identical 404 response — its message even says
"Not found or No changes" — so the two outcomes are not distinguishable by
the caller. -/
theorem patch_collapses_noChange_and_notFound :
    patchProductCategories [(1, [("id", Json.num 1), ("title", Json.str "t")])] 1 [] 0
      = (.err404 "Not found or No changes",
         [(1, [("id", Json.num 1), ("title", Json.str "t")])]) ∧
    patchProductCategories [(1, [("id", Json.num 1), ("title", Json.str "t")])] 9
        [("title", Json.str "x")] 0
      = (.err404 "Not found or No changes",
         [(1, [("id", Json.num 1), ("title", Json.str "t")])]) ∧
    ¬ claimC2 := by
  refine ⟨rfl, rfl, fun h => ?_⟩
  have hne : applicableUpdates [("title", Json.str "x")] ≠ [] := by
    rw [show applicableUpdates [("title", Json.str "x")]
        = [("title", Json.str "x")] from rfl]
    exact List.cons_ne_nil _ _
  exact h.2.2 [(1, [("id", Json.num 1), ("title", Json.str "t")])]
    [(1, [("id", Json.num 1), ("title", Json.str "t")])] 1 9
    [] [("title", Json.str "x")] 0 0 rfl hne rfl rfl

/-- C2 (amended): inside `dynamicUpdate` the two outcomes are distinct
JavaScript values — zero applicable fields returns `null` before any query
and leaves storage untouched, while `undefined` arises exactly when
applicable fields exist but no row matches — but the PATCH route collapses
both into the same 404 response, so callers cannot tell them apart. -/
theorem dynamicUpdate_noChange_vs_notFound :
    (∀ (st : TableState) (id : Nat) (updates : Body),
      applicableUpdates updates = [] →
      dynamicUpdateRun st id updates = ⟨.noChange, st, false⟩) ∧
    (∀ (st : TableState) (id : Nat) (updates : Body),
      (dynamicUpdateRun st id updates).res = .notFound ↔
        applicableUpdates updates ≠ [] ∧ lookupRow st id = none) ∧
    (UpdRes.noChange ≠ UpdRes.notFound) ∧
    (∀ (st : TableState) (id : Nat) (b : Body) (now : Nat),
      applicableUpdates b = [] → lookupField b "title" = none →
      patchProductCategories st id b now
        = (.err404 "Not found or No changes", st)) := by
  refine ⟨?_, ?_, ?_, ?_⟩
  · intro st id updates h
    simp [dynamicUpdateRun, h]
  · intro st id updates
    by_cases he : (applicableUpdates updates).isEmpty = true
    · have hnil : applicableUpdates updates = [] := List.isEmpty_iff.mp he
      simp [dynamicUpdateRun, hnil]
    · have hnonnil : applicableUpdates updates ≠ [] :=
        fun hc => he (List.isEmpty_iff.mpr hc)
      cases hlook : lookupRow st id with
      | none => simp [dynamicUpdateRun, he, hlook, hnonnil]
      | some r => simp [dynamicUpdateRun, he, hlook]
  · intro hc
    cases hc
  · intro st id b now hempty htitle
    have hrun : dynamicUpdateRun st id b = ⟨.noChange, st, false⟩ := by
      simp [dynamicUpdateRun, hempty]
    simp [patchProductCategories, htitle, jsTruthy, hrun]

/-- Witness for the amended C2: a payload holding only the ignored `id` key
yields the no-query NoChange result, and the route turns it into the shared
404 response. -/
theorem dynamicUpdate_noChange_vs_notFound_witness :
    dynamicUpdateRun [] 1 [("id", Json.num 5)] = ⟨.noChange, [], false⟩ ∧
    patchProductCategories [] 1 [("id", Json.num 5)] 0
      = (.err404 "Not found or No changes", []) :=
  ⟨(dynamicUpdate_noChange_vs_notFound).1 [] 1 [("id", Json.num 5)] rfl,
   (dynamicUpdate_noChange_vs_notFound).2.2.2 [] 1 [("id", Json.num 5)] 0 rfl rfl⟩

/-! ## C5: create-route defaulting -/

lemma truthy_ne_null {j : Json} (h : j.truthy = true) : j ≠ .null := by
  intro hc
  subst hc
  simp [Json.truthy] at h

lemma isNullBind_val_some {j : Json} (h : j ≠ .null) :
    isNullBind (.val (some j)) = false := by
  cases j <;> simp [isNullBind] <;> exact absurd rfl h

lemma jsOr_ne_null (x : Option Json) (d : Json) (hd : d ≠ .null) :
    jsOr x d ≠ .null := by
  cases x with
  | none => simpa [jsOr] using hd
  | some j =>
    by_cases ht : j.truthy = true
    · simpa [jsOr, ht] using truthy_ne_null ht
    · simp only [Bool.not_eq_true] at ht
      simpa [jsOr, ht] using hd

lemma jsNullish_ne_null (x : Option Json) (d : Json) (hd : d ≠ .null) :
    jsNullish x d ≠ .null := by
  cases x with
  | none => simpa [jsNullish] using hd
  | some j => cases j <;> simp [jsNullish] <;> first | exact hd | intro hc; cases hc

/-- Counterexample to C5: the services create applies no defaults at all —
with an empty payload every bound parameter is `undefined`, including the
NOT NULL `title` column and the `sort_order` the claim says defaults to 0. -/
theorem servicesCreate_no_defaults :
    servicesCreateBinds [] = [("title", SqlParam.val none),
      ("description", SqlParam.val none), ("image_url", SqlParam.val none),
      ("sort_order", SqlParam.val none), ("is_active", SqlParam.val none)] ∧
    "title" ∈ notNullColumns "services" ∧
    isNullBind (SqlParam.val none) = true ∧
    ¬ claimC5 := by
  refine ⟨rfl, by decide, rfl, fun h => ?_⟩
  have hmem : ("title", SqlParam.val none) ∈ servicesCreateBinds [] := by
    rw [show servicesCreateBinds [] = [("title", SqlParam.val none),
      ("description", SqlParam.val none), ("image_url", SqlParam.val none),
      ("sort_order", SqlParam.val none), ("is_active", SqlParam.val none)] from rfl]
    exact List.mem_cons_self _ _
  have := h.2.2.2.1 [] ("title", SqlParam.val none) hmem (by decide)
  simp [isNullBind] at this

/-- C5 (amended): the defaults exist only where the source writes them — the
products create (the only one validating required fields) never binds
`undefined`/`null` for any column, and the two category creates default
`sort_order` to 0 and `is_active` to true when absent; the services, news,
certifications and customer-logos creates bind the destructured values with
no defaulting (see the counterexample for the resulting NULL binds). -/
theorem create_defaults_amended (body : Body) (now : Nat) :
    (∀ binds, productsCreateBinds body = some binds →
      ∀ p ∈ binds, isNullBind p.2 = false) ∧
    (∀ binds, productCategoriesCreateBinds body now = some binds →
      (lookupField body "sort_order" = none →
        ("sort_order", SqlParam.val (some (Json.num 0))) ∈ binds) ∧
      (lookupField body "is_active" = none →
        ("is_active", SqlParam.val (some (Json.bool true))) ∈ binds)) ∧
    (∀ binds, serviceCategoriesCreateBinds body now = some binds →
      (lookupField body "sort_order" = none →
        ("sort_order", SqlParam.val (some (Json.num 0))) ∈ binds) ∧
      (lookupField body "is_active" = none →
        ("is_active", SqlParam.val (some (Json.bool true))) ∈ binds)) := by
  refine ⟨?_, ?_, ?_⟩
  · intro binds h
    unfold productsCreateBinds at h
    by_cases hc : (!(jsTruthy (lookupField body "category"))
        || !(jsTruthy (lookupField body "name"))) = true
    · rw [if_pos hc] at h
      simp at h
    · rw [if_neg hc] at h
      injection h with h'
      subst h'
      simp only [Bool.or_eq_true, Bool.not_eq_true'] at hc
      push_neg at hc
      obtain ⟨hcat, hname⟩ := hc
      simp only [Bool.not_eq_false] at hcat hname
      intro p hp
      simp only [List.mem_cons, List.not_mem_nil, or_false] at hp
      rcases hp with rfl | rfl | rfl | rfl | rfl | rfl | rfl | rfl
      · cases hcat0 : lookupField body "category" with
        | none => rw [hcat0] at hcat; simp [jsTruthy] at hcat
        | some jc =>
          rw [hcat0] at hcat
          simp only [jsTruthy] at hcat
          exact isNullBind_val_some (truthy_ne_null hcat)
      · exact isNullBind_val_some (jsOr_ne_null _ _ (by simp))
      · cases hname0 : lookupField body "name" with
        | none => rw [hname0] at hname; simp [jsTruthy] at hname
        | some jn =>
          rw [hname0] at hname
          simp only [jsTruthy] at hname
          exact isNullBind_val_some (truthy_ne_null hname)
      · exact isNullBind_val_some (jsOr_ne_null _ _ (by simp))
      · exact isNullBind_val_some (jsOr_ne_null _ _ (by simp))
      · exact isNullBind_val_some (jsOr_ne_null _ _ (by simp))
      · exact isNullBind_val_some (jsNullish_ne_null _ _ (by simp))
      · exact isNullBind_val_some (jsOr_ne_null _ _ (by simp))
  · intro binds h
    unfold productCategoriesCreateBinds at h
    rw [Option.map_eq_some'] at h
    obtain ⟨slug, hs, hf⟩ := h
    subst hf
    constructor
    · intro hsort
      simp [hsort, jsOr]
    · intro hact
      simp [hact, jsNullish]
  · intro binds h
    unfold serviceCategoriesCreateBinds at h
    rw [Option.map_eq_some'] at h
    obtain ⟨slug, hs, hf⟩ := h
    subst hf
    constructor
    · intro hsort
      simp [hsort, jsOr]
    · intro hact
      simp [hact, jsNullish]

/-- Witness for the amended C5: a product-categories create with only a
title binds the defaulted `sort_order = 0`. -/
theorem create_defaults_amended_witness :
    ("sort_order", SqlParam.val (some (Json.num 0)))
      ∈ [("title", SqlParam.val (some (Json.str "t"))),
         ("slug", SqlParam.val (some (Json.str "t"))),
         ("sort_order", SqlParam.val (some (Json.num 0))),
         ("is_active", SqlParam.val (some (Json.bool true))),
         ("subcategories", SqlParam.jsonText "[]")] :=
  ((create_defaults_amended [("title", Json.str "t")] 0).2.1 _ rfl).1 rfl

/-! ## C6: delete semantics -/

lemma lookupRow_none_filter_nil {st : TableState} {id : Nat}
    (h : lookupRow st id = none) :
    st.filter (fun p => p.1 == id) = [] := by
  unfold lookupRow at h
  rw [Option.map_eq_none'] at h
  rw [List.filter_eq_nil_iff]
  intro a ha
  exact List.find?_eq_none.mp h a ha

lemma lookupRow_after_delete (st : TableState) (id : Nat) :
    lookupRow (st.filter (fun p => p.1 != id)) id = none := by
  unfold lookupRow
  rw [Option.map_eq_none', List.find?_eq_none]
  intro x hx
  have := (List.mem_filter.mp hx).2
  simp only [bne_iff_ne, ne_eq] at this
  simp [this]

/-- Counterexample to C6: the services-style delete performs no row check —
deleting a missing identifier answers `{message: "Deleted"}` with HTTP 200,
not NotFound. -/
theorem deleteUnchecked_missing_id :
    deleteUncheckedRoute [] 1 = (.okMsg "Deleted", []) ∧
    ¬ claimC6 := by
  refine ⟨rfl, fun h => ?_⟩
  have := h.2.1 [] 1 rfl
  rw [show (deleteUncheckedRoute [] 1).1 = Resp.okMsg "Deleted" from rfl] at this
  exact Resp.noConfusion this

/-- C6 (amended): the checked deletes (products and the two category
families) answer NotFound for a missing identifier and Deleted for an
existing one; the unchecked deletes (services, news, certifications,
customer-logos) always answer Deleted; in both shapes an existing record is
removed, so a subsequent get answers NotFound. -/
theorem delete_semantics (st : TableState) (id : Nat) :
    (lookupRow st id = none → (deleteCheckedRoute st id).1 = .err404 "Not found") ∧
    (∀ r, lookupRow st id = some r →
      (deleteCheckedRoute st id).1 = .okMsg "Deleted" ∧
      getByIdRoute (deleteCheckedRoute st id).2 id = .err404 "Not found") ∧
    ((deleteUncheckedRoute st id).1 = .okMsg "Deleted") ∧
    (getByIdRoute (deleteUncheckedRoute st id).2 id = .err404 "Not found") := by
  refine ⟨?_, ?_, rfl, ?_⟩
  · intro h
    unfold deleteCheckedRoute deleteRows
    simp [lookupRow_none_filter_nil h]
  · intro r h
    have hfind : st.find? (fun p => p.1 == id) ≠ none := by
      unfold lookupRow at h
      intro hc
      rw [hc] at h
      simp at h
    obtain ⟨a, ha⟩ := Option.ne_none_iff_exists'.mp hfind
    have hpa := List.find?_some ha
    have hmem : a ∈ st.filter (fun p => p.1 == id) :=
      List.mem_filter.mpr ⟨List.mem_of_find?_eq_some ha, hpa⟩
    have hne : st.filter (fun p => p.1 == id) ≠ [] := by
      intro hc
      rw [hc] at hmem
      exact List.not_mem_nil a hmem
    constructor
    · unfold deleteCheckedRoute deleteRows
      have : ((st.filter (fun p => p.1 == id)).map (fun p => p.2)).isEmpty = false := by
        rw [List.isEmpty_eq_false_iff_exists_mem]
        exact ⟨a.2, List.mem_map.mpr ⟨a, hmem, rfl⟩⟩
      simp [this]
    · unfold deleteCheckedRoute deleteRows getByIdRoute
      have : ((st.filter (fun p => p.1 == id)).map (fun p => p.2)).isEmpty = false := by
        rw [List.isEmpty_eq_false_iff_exists_mem]
        exact ⟨a.2, List.mem_map.mpr ⟨a, hmem, rfl⟩⟩
      simp only [this, Bool.false_eq_true, if_false]
      rw [lookupRow_after_delete st id]
  · unfold deleteUncheckedRoute deleteRows getByIdRoute
    rw [lookupRow_after_delete st id]

/-- Witness for the amended C6 at a concrete store. -/
theorem delete_semantics_witness :
    (deleteCheckedRoute [] 3).1 = .err404 "Not found" ∧
    (deleteCheckedRoute [(3, [("id", Json.num 3)])] 3).1 = .okMsg "Deleted" :=
  ⟨(delete_semantics [] 3).1 rfl,
   ((delete_semantics [(3, [("id", Json.num 3)])] 3).2.1 [("id", Json.num 3)] rfl).1⟩

/-! ## C7 and C8: the contact singleton -/

/-- Counterexample to C7: with no stored row the contact get returns the
empty object literal `{}` — it carries none of the contact fields, so the
response is not a structurally-complete empty representation. -/
theorem contactGet_empty_object :
    contactGetRoute none = .ok (.obj []) ∧
    objLookup (.obj []) "heading" = none ∧
    "heading" ∈ contactContentFields ∧
    ¬ claimC7 := by
  refine ⟨rfl, rfl, by decide, fun h => ?_⟩
  obtain ⟨b, d, hb, hd⟩ := h.2 "heading" (by decide)
  rw [show contactGetRoute none = Resp.ok (Json.obj []) from rfl] at hb
  injection hb with hb'
  subst hb'
  rw [show objLookup (Json.obj []) "heading" = none from rfl] at hd
  exact Option.noConfusion hd

/-- C7 (amended): with no stored row the contact get answers HTTP 200 with
the empty object `{}` as its data — never NotFound — and with a stored row
it returns that row; the empty representation is the empty object, not a
record carrying every contact field. -/
theorem contactGet_never_notFound :
    contactGetRoute none = .ok (.obj []) ∧
    (∀ r, contactGetRoute (some r) = .ok (contactRowToJson r)) ∧
    (∀ st m, contactGetRoute st ≠ .err404 m) := by
  refine ⟨rfl, fun r => rfl, ?_⟩
  intro st m hc
  cases st with
  | none => exact Resp.noConfusion hc
  | some r => exact Resp.noConfusion hc

/-- Witness for the amended C7. -/
theorem contactGet_never_notFound_witness :
    contactGetRoute none ≠ .err404 "Not found" :=
  (contactGet_never_notFound).2.2 none "Not found"

lemma jsonbRoundTrip_id (j : Json) : jsonbRoundTrip j = j := by
  unfold jsonbRoundTrip
  rw [jsonParse_stringify]
  rfl

/-- C8: the contact put is one conditional insert-or-overwrite at the fixed
key: for every prior state the resulting stored row is built solely from the
payload and the write time (every content field overwritten, no merge with
the prior row — the final state is identical whatever the prior state was),
`address_lines` goes through the JSON/jsonb boundary with a `[]` fallback,
and `updated_at` is stamped with the current time on both branches. -/
theorem contactPut_upsert (st : Option ContactRow) (d : Body) (now : Nat) :
    contactPut st d now = (buildContactRow d now, some (buildContactRow d now)) ∧
    (∀ st2, (contactPut st d now).2 = (contactPut st2 d now).2) ∧
    (buildContactRow d now).updated_at = now ∧
    (buildContactRow d now).address_lines
      = jsOr (lookupField d "address_lines") (.arr []) := by
  have hput : ∀ s : Option ContactRow,
      contactPut s d now = (buildContactRow d now, some (buildContactRow d now)) := by
    intro s
    cases s with
    | none => rfl
    | some old => cases old; rfl
  refine ⟨hput st, fun st2 => by rw [hput st, hput st2], rfl, ?_⟩
  simp only [buildContactRow]
  exact jsonbRoundTrip_id _
